import Mathlib

/-!
# Verification of the radon test-session core

Shallow embedding of the test-session state machine, timeline calculator,
risk classifier, result/certificate lifecycle and certificate numbering of
the radon-testing backend, together with proofs of the specified
properties.

Conventions of the embedding:
* JavaScript `Date` values are modelled at calendar-day granularity by
  `CivilDate` (proleptic Gregorian year/month/day); `setDate(getDate()+n)`
  is day addition, `setFullYear(getFullYear()+k)` keeps month and
  day-of-month and rolls an invalid Feb 29 over, exactly as normalisation
  of an overflowing day-of-month does.
* JavaScript numbers carrying radon concentrations are modelled by `ℚ`.
* Thrown `HttpError`s are modelled by an inductive error type whose
  constructors carry the data interpolated into the source's message
  strings; `Except` models throw/return.
* The Prisma session table is an association list keyed by session id;
  each `await prisma...` write commits on its own (the sources use no
  transactions), which the state-passing definitions reproduce.
-/

deriving instance DecidableEq for Except

namespace ClearPath

/-! ## Enumerated types of the data model -/

/-- `SessionStatus` from `test-session-state.service.ts`. -/
inductive SessionStatus where
  | ordered
  | active
  | retrieval_due
  | mailed
  | results_pending
  | complete
  | expired
  | cancelled
  deriving DecidableEq, Repr, Fintype

/-- `KitType` from `test-session-timeline.service.ts`. -/
inductive KitType where
  | long_term
  | real_estate_short
  deriving DecidableEq, Repr, Fintype

/-- `RiskZone` from `radon-risk.service.ts`. -/
inductive RiskZone where
  | below_guideline
  | caution
  | action_required
  | urgent_action
  deriving DecidableEq, Repr, Fintype

/-- `CertType` from `certificate-verification.service.ts`. -/
inductive CertType where
  | residential
  | real_estate
  deriving DecidableEq, Repr, Fintype

/-- Certificate lifecycle status (`valid`/`expired`/`superseded`). -/
inductive CertStatus where
  | valid
  | expired
  | superseded
  deriving DecidableEq, Repr, Fintype

/-! ## Calendar dates

JavaScript `Date`s at day granularity. -/

/-- A proleptic Gregorian calendar date. -/
structure CivilDate where
  year : Int
  month : Nat
  day : Nat
  deriving DecidableEq, Repr

/-- Gregorian leap-year rule (as JS `Date` uses). -/
def isLeapYear (y : Int) : Bool :=
  (y % 4 == 0 && y % 100 != 0) || (y % 400 == 0)

/-- Number of days in a month. -/
def daysInMonth (y : Int) (m : Nat) : Nat :=
  match m with
  | 2 => if isLeapYear y then 29 else 28
  | 4 => 30
  | 6 => 30
  | 9 => 30
  | 11 => 30
  | _ => 31

/-- The following calendar day. -/
def nextDay (d : CivilDate) : CivilDate :=
  if d.day < daysInMonth d.year d.month then ⟨d.year, d.month, d.day + 1⟩
  else if d.month < 12 then ⟨d.year, d.month + 1, 1⟩
  else ⟨d.year + 1, 1, 1⟩

/-- Calendar-day addition; models JS `date.setDate(date.getDate() + n)`. -/
def addDays (d : CivilDate) : Nat → CivilDate
  | 0 => d
  | n + 1 => nextDay (addDays d n)

/-- The date with the given year, month and (possibly overflowing)
day-of-month, normalised the way JS `Date` normalises; models
`setFullYear` landing on an invalid Feb 29. -/
def mkJsDate (y : Int) (m : Nat) (day : Nat) : CivilDate :=
  addDays ⟨y, m, 1⟩ (day - 1)

/-! ## Timeline Calculator (`test-session-timeline.service.ts`) -/

def LONG_TERM_DURATION_DAYS : Nat := 91
def LONG_TERM_RETRIEVAL_DUE_DAYS : Nat := 80
def SHORT_TERM_DURATION_DAYS : Nat := 4
def SHORT_TERM_RETRIEVAL_DUE_DAYS : Nat := 2

/-- `calculateExpectedCompletionDate` from the timeline service. -/
def calculateExpectedCompletionDate (kitType : KitType) (activatedAt : CivilDate) :
    CivilDate :=
  let durationDays :=
    if kitType = .long_term then LONG_TERM_DURATION_DAYS else SHORT_TERM_DURATION_DAYS
  addDays activatedAt durationDays

/-- `calculateRetrievalDueAt` from the timeline service. -/
def calculateRetrievalDueAt (kitType : KitType) (activatedAt : CivilDate) :
    CivilDate :=
  let retrievalDueDays :=
    if kitType = .long_term then LONG_TERM_RETRIEVAL_DUE_DAYS
    else SHORT_TERM_RETRIEVAL_DUE_DAYS
  addDays activatedAt retrievalDueDays

/-! ## Risk Classifier (`radon-risk.service.ts`) -/

def THRESHOLD_GUIDELINE : ℚ := 200
def THRESHOLD_CAUTION : ℚ := 600
def THRESHOLD_ACTION : ℚ := 800
def MIN_RADON_VALUE : ℚ := 0
def MAX_RADON_VALUE : ℚ := 10000

/-- `calculateRiskZone` from `radon-risk.service.ts`. -/
def calculateRiskZone (valueBqm3 : ℚ) : RiskZone :=
  if valueBqm3 < THRESHOLD_GUIDELINE then .below_guideline
  else if valueBqm3 < THRESHOLD_CAUTION then .caution
  else if valueBqm3 < THRESHOLD_ACTION then .action_required
  else .urgent_action

/-- `isValidRadonMeasurement` from `radon-risk.service.ts`. -/
def isValidRadonMeasurement (valueBqm3 : ℚ) : Bool :=
  MIN_RADON_VALUE ≤ valueBqm3 && valueBqm3 ≤ MAX_RADON_VALUE

/-! ## Errors

The HTTP error classes of `lib/errors/http-errors.ts`, specialised to the
throw sites the embedded operations reach.  Each constructor stands for
one thrown error and carries the data interpolated into its message. -/

inductive ErrorKind where
  | badRequest
  | notFound
  | conflict
  deriving DecidableEq, Repr

inductive HttpError where
  /-- `NotFoundError('Test session not found')` from the routes. -/
  | notFoundTestSession
  /-- `NotFoundError('Result not found')`. -/
  | notFoundResult
  /-- `ConflictError` raised by `validateStatusTransition`, carrying the
  current status, the requested status and the allowed transition list
  that the source interpolates into the message. -/
  | invalidTransition (current target : SessionStatus)
      (allowed : List SessionStatus)
  /-- `ConflictError('Test session not found')` from `executeTransition`. -/
  | conflictTestSessionNotFound
  /-- `ConflictError('A result already exists for this test session')`. -/
  | conflictResultExists
  /-- `ConflictError('Cannot update result: ...')` for immutable results. -/
  | conflictImmutableResult
  /-- `ConflictError('Cannot delete result: A certificate exists ...')`,
  also the duplicate-certificate conflict at generation. -/
  | conflictCertificateExists
  /-- `ConflictError('Cannot mail kit in ... status')`. -/
  | conflictCannotMail (current : SessionStatus)
  /-- `BadRequestError('Radon value must be between 0 and 10,000 Bq/m³')`. -/
  | badRequestRadonValue
  /-- `BadRequestError('Test session must be in mailed, results_pending,
  or complete status')`. -/
  | badRequestSessionStatus (current : SessionStatus)
  /-- `BadRequestError` for an issuance type inconsistent with the kit
  type at certificate generation. -/
  | badRequestCertTypeMismatch
  deriving DecidableEq, Repr

/-- The HTTP class (status code family) an error is raised with. -/
def HttpError.kind : HttpError → ErrorKind
  | .notFoundTestSession => .notFound
  | .notFoundResult => .notFound
  | .invalidTransition _ _ _ => .conflict
  | .conflictTestSessionNotFound => .conflict
  | .conflictResultExists => .conflict
  | .conflictImmutableResult => .conflict
  | .conflictCertificateExists => .conflict
  | .conflictCannotMail _ => .conflict
  | .badRequestRadonValue => .badRequest
  | .badRequestSessionStatus _ => .badRequest
  | .badRequestCertTypeMismatch => .badRequest

/-! ## Session State Machine (`test-session-state.service.ts`) -/

/-- The `STATE_TRANSITIONS` record. -/
def STATE_TRANSITIONS : SessionStatus → List SessionStatus
  | .ordered => [.active, .cancelled]
  | .active => [.retrieval_due, .cancelled]
  | .retrieval_due => [.mailed, .expired, .cancelled]
  | .mailed => [.results_pending, .cancelled]
  | .results_pending => [.complete, .cancelled]
  | .complete => []
  | .expired => []
  | .cancelled => []

/-- `validateStatusTransition`: no-op when the statuses coincide,
otherwise a `ConflictError` when the target is not an allowed
transition. -/
def validateStatusTransition (currentStatus newStatus : SessionStatus) :
    Except HttpError Unit :=
  if currentStatus = newStatus then .ok ()
  else
    let allowedTransitions := STATE_TRANSITIONS currentStatus
    if newStatus ∈ allowedTransitions then .ok ()
    else .error (.invalidTransition currentStatus newStatus allowedTransitions)

/-- `getNextAllowedStatuses`. -/
def getNextAllowedStatuses (currentStatus : SessionStatus) :
    List SessionStatus :=
  STATE_TRANSITIONS currentStatus

/-! ## Sessions and the session store -/

/-- A `TestSession` row, restricted to the fields the embedded operations
read or write. -/
structure TestSession where
  homeId : String
  kitType : KitType
  status : SessionStatus
  activatedAt : Option CivilDate := none
  expectedCompletionDate : Option CivilDate := none
  retrievalDueAt : Option CivilDate := none
  retrievedAt : Option CivilDate := none
  mailedAt : Option CivilDate := none
  deriving DecidableEq, Repr

/-- The session table: an association list keyed by session id. -/
abbrev SessionStore := List (String × TestSession)

/-- `prisma.testSession.findUnique({ where: { id } })`. -/
def findSession (db : SessionStore) (id : String) : Option TestSession :=
  match db with
  | [] => none
  | (k, v) :: rest => if k = id then some v else findSession rest id

/-- `prisma.testSession.update({ where: { id }, data })`: replace the row
with the given id. -/
def updateSessionStore (db : SessionStore) (id : String) (s : TestSession) :
    SessionStore :=
  db.map fun e => if e.1 = id then (e.1, s) else e

/-- The row written by `executeTransition`: the new status plus, for the
`ordered → active` transition only, the stamped activation timestamp and
the two timeline dates. -/
def transitionedSession (session : TestSession) (newStatus : SessionStatus)
    (now : CivilDate) : TestSession :=
  if session.status = .ordered ∧ newStatus = .active then
    { session with
        status := newStatus
        activatedAt := some now
        expectedCompletionDate :=
          some (calculateExpectedCompletionDate session.kitType now)
        retrievalDueAt := some (calculateRetrievalDueAt session.kitType now) }
  else { session with status := newStatus }

/-- `executeTransition` from `test-session-state.service.ts`: load the
session (a missing id raises `ConflictError('Test session not found')`),
validate, then perform the single update. -/
def executeTransition (testSessionId : String) (newStatus : SessionStatus)
    (now : CivilDate) (db : SessionStore) : Except HttpError SessionStore :=
  match findSession db testSessionId with
  | none => .error .conflictTestSessionNotFound
  | some session =>
    match validateStatusTransition session.status newStatus with
    | .error e => .error e
    | .ok _ =>
      .ok (updateSessionStore db testSessionId
        (transitionedSession session newStatus now))

/-! ## Test session routes (`test-sessions.routes.ts`)

Each handler is a function from the session table to either an error (the
thrown `HttpError`; nothing written) or the updated table. -/

/-- Body of `PUT /test-sessions/:id`. -/
structure UpdateTestSessionInput where
  status : Option SessionStatus := none
  retrievedAt : Option CivilDate := none
  mailedAt : Option CivilDate := none
  deriving DecidableEq, Repr

/-- `PUT /test-sessions/:id`: load, validate and execute a requested
status transition, then apply any caller-supplied `retrievedAt` /
`mailedAt` timestamps. -/
def putTestSession (id : String) (body : UpdateTestSessionInput)
    (now : CivilDate) (db : SessionStore) : Except HttpError SessionStore :=
  match findSession db id with
  | none => .error .notFoundTestSession
  | some session =>
    let afterStatus : Except HttpError SessionStore :=
      match body.status with
      | some st =>
        match validateStatusTransition session.status st with
        | .error e => .error e
        | .ok _ => executeTransition id st now db
      | none => .ok db
    match afterStatus with
    | .error e => .error e
    | .ok db1 =>
      if body.retrievedAt.isSome || body.mailedAt.isSome then
        match findSession db1 id with
        | none => .ok db1
        | some s2 =>
          let s3 := match body.retrievedAt with
            | some t => { s2 with retrievedAt := some t }
            | none => s2
          let s4 := match body.mailedAt with
            | some t => { s3 with mailedAt := some t }
            | none => s3
          .ok (updateSessionStore db1 id s4)
      else .ok db1

/-- `PATCH /test-sessions/:id/retrieve`: stamp `retrievedAt` (caller value
or now); no status change. -/
def retrieveTestSession (id : String) (bodyRetrievedAt : Option CivilDate)
    (now : CivilDate) (db : SessionStore) : Except HttpError SessionStore :=
  match findSession db id with
  | none => .error .notFoundTestSession
  | some session =>
    let retrievedAt := bodyRetrievedAt.getD now
    .ok (updateSessionStore db id { session with retrievedAt := some retrievedAt })

/-- `PATCH /test-sessions/:id/mail`: allowed from `active` or
`retrieval_due`; writes `status := mailed` and `mailedAt` directly,
without the state machine. -/
def mailTestSession (id : String) (bodyMailedAt : Option CivilDate)
    (now : CivilDate) (db : SessionStore) : Except HttpError SessionStore :=
  match findSession db id with
  | none => .error .notFoundTestSession
  | some session =>
    let allowedStatuses : List SessionStatus := [.active, .retrieval_due]
    if session.status ∈ allowedStatuses then
      let mailedAt := bodyMailedAt.getD now
      .ok (updateSessionStore db id
        { session with status := .mailed, mailedAt := some mailedAt })
    else .error (.conflictCannotMail session.status)

/-- `PATCH /test-sessions/:id/cancel`: validate and execute the
transition to `cancelled`. -/
def cancelTestSession (id : String) (now : CivilDate) (db : SessionStore) :
    Except HttpError SessionStore :=
  match findSession db id with
  | none => .error .notFoundTestSession
  | some session =>
    match validateStatusTransition session.status .cancelled with
    | .error e => .error e
    | .ok _ => executeTransition id .cancelled now db

/-- The status-writing operations of the session API, as one type. -/
inductive SessionOp where
  | exec (target : SessionStatus)
  | put (body : UpdateTestSessionInput)
  | retrieve (retrievedAt : Option CivilDate)
  | mail (mailedAt : Option CivilDate)
  | cancel
  deriving DecidableEq, Repr

/-- Run an operation; a thrown error is recovered at the route boundary
and leaves the table as it was. -/
def runSessionOp (op : SessionOp) (id : String) (now : CivilDate)
    (db : SessionStore) : SessionStore :=
  let out : Except HttpError SessionStore :=
    match op with
    | .exec t => executeTransition id t now db
    | .put body => putTestSession id body now db
    | .retrieve t => retrieveTestSession id t now db
    | .mail t => mailTestSession id t now db
    | .cancel => cancelTestSession id now db
  match out with
  | .ok db' => db'
  | .error _ => db

/-! ## Results and certificates -/

/-- A `Result` row. -/
structure Result where
  id : String
  testSessionId : String
  valueBqm3 : ℚ
  zone : RiskZone
  labReference : Option String := none
  enteredByUserId : String
  isImmutable : Bool
  recordedAt : CivilDate
  deriving DecidableEq, Repr

/-- A `Certificate` row. -/
structure Certificate where
  id : String
  resultId : String
  homeId : String
  certificateNumber : String
  certType : CertType
  status : CertStatus
  validFrom : CivilDate
  validUntil : CivilDate
  supersededAt : Option CivilDate := none
  deriving DecidableEq, Repr

/-- The relational store the result/certificate routes touch. -/
structure Db where
  sessions : SessionStore
  results : List Result
  certificates : List Certificate
  deriving DecidableEq, Repr

/-- Body of `POST /results` (`createResultSchema`). -/
structure CreateResultInput where
  testSessionId : String
  valueBqm3 : ℚ
  labReference : Option String := none
  recordedAt : CivilDate
  deriving DecidableEq, Repr

/-- Body of `PUT /results/:id` (`updateResultSchema`); an outer `none`
means the field is absent from the request. -/
structure UpdateResultInput where
  valueBqm3 : Option ℚ := none
  labReference : Option (Option String) := none
  recordedAt : Option CivilDate := none
  deriving DecidableEq, Repr

/-- `POST /results` from `results.routes.ts`.  The handler returns the
store alongside the outcome because its two writes are separate awaited
Prisma calls with no transaction: the `result.create` commits even when
the subsequent `executeTransition` throws. -/
def createResultRoute (db : Db) (userId : String) (body : CreateResultInput)
    (newId : String) (now : CivilDate) : Db × Except HttpError Result :=
  if !isValidRadonMeasurement body.valueBqm3 then
    (db, .error .badRequestRadonValue)
  else
    match findSession db.sessions body.testSessionId with
    | none => (db, .error .notFoundTestSession)
    | some testSession =>
      let allowedStatuses : List SessionStatus :=
        [.mailed, .results_pending, .complete]
      if testSession.status ∉ allowedStatuses then
        (db, .error (.badRequestSessionStatus testSession.status))
      else
        match db.results.find? (fun r => r.testSessionId == body.testSessionId) with
        | some _ => (db, .error .conflictResultExists)
        | none =>
          let zone := calculateRiskZone body.valueBqm3
          let result : Result :=
            { id := newId
              testSessionId := body.testSessionId
              valueBqm3 := body.valueBqm3
              zone := zone
              labReference := body.labReference
              enteredByUserId := userId
              isImmutable := false
              recordedAt := body.recordedAt }
          let db1 := { db with results := db.results ++ [result] }
          if testSession.status ≠ .complete then
            match executeTransition body.testSessionId .complete now db1.sessions with
            | .error e => (db1, .error e)
            | .ok sessions2 => ({ db1 with sessions := sessions2 }, .ok result)
          else (db1, .ok result)

/-- The `updateData` a `PUT /results/:id` request applies to a row: the
new concentration (with the risk zone recomputed), the lab reference and
the recorded-at date, each only when present in the body. -/
def appliedResultUpdate (existingResult : Result) (body : UpdateResultInput) :
    Result :=
  let r1 := match body.valueBqm3 with
    | some v => { existingResult with
        valueBqm3 := v, zone := calculateRiskZone v }
    | none => existingResult
  let r2 := match body.labReference with
    | some lr => { r1 with labReference := lr }
    | none => r1
  match body.recordedAt with
  | some t => { r2 with recordedAt := t }
  | none => r2

/-- `PUT /results/:id` from `results.routes.ts`. -/
def updateResultRoute (db : Db) (id : String) (body : UpdateResultInput) :
    Db × Except HttpError Result :=
  match db.results.find? (fun r => r.id == id) with
  | none => (db, .error .notFoundResult)
  | some existingResult =>
    if existingResult.isImmutable then (db, .error .conflictImmutableResult)
    else
      let badValue := match body.valueBqm3 with
        | some v => !isValidRadonMeasurement v
        | none => false
      if badValue then (db, .error .badRequestRadonValue)
      else
        let r3 := appliedResultUpdate existingResult body
        ({ db with results := db.results.map fun r => if r.id == id then r3 else r },
          .ok r3)

/-- `DELETE /results/:id` from `results.routes.ts`: refused while a
certificate references the result. -/
def deleteResultRoute (db : Db) (id : String) : Db × Except HttpError Unit :=
  match db.results.find? (fun r => r.id == id) with
  | none => (db, .error .notFoundResult)
  | some existingResult =>
    match db.certificates.find? (fun c => c.resultId == existingResult.id) with
    | some _ => (db, .error .conflictCertificateExists)
    | none =>
      ({ db with results := db.results.filter fun r => !(r.id == id) }, .ok ())

/-! ## Decimal strings

The certificate-number service manipulates JS strings; the pieces of the
JS string library it uses are embedded here on `List Char`. -/

/-- The character for one decimal digit. -/
def digitChar (d : Nat) : Char := Char.ofNat (48 + d)

/-- Decimal digits, most significant first, by structural recursion on a
fuel bound (`n + 1` steps always suffice since each step drops a digit). -/
def natDigitsAux (fuel : Nat) (n : Nat) : List Nat :=
  match fuel with
  | 0 => []
  | fuel + 1 => if n < 10 then [n] else natDigitsAux fuel (n / 10) ++ [n % 10]

/-- Decimal digits of a natural number, most significant first. -/
def natDigits (n : Nat) : List Nat := natDigitsAux (n + 1) n

/-- `Number.prototype.toString` for a natural number. -/
def natRepr (n : Nat) : String := String.mk ((natDigits n).map digitChar)

/-- `Number.prototype.toString` for an integer. -/
def intRepr (i : Int) : String :=
  if i < 0 then "-" ++ natRepr i.natAbs else natRepr i.natAbs

/-- `String.prototype.padStart(width, '0')`. -/
def padStartZeros (width : Nat) (s : String) : String :=
  if width ≤ s.length then s
  else String.mk (List.replicate (width - s.length) '0') ++ s

/-- Code-unit comparison of two characters. -/
def charLtB (a b : Char) : Bool := a.toNat < b.toNat

/-- Lexicographic comparison of two character lists, as relational
databases order text rows (and as JS `<` compares strings). -/
def listLtB : List Char → List Char → Bool
  | [], [] => false
  | [], _ :: _ => true
  | _ :: _, [] => false
  | a :: as, b :: bs =>
    if charLtB a b then true
    else if charLtB b a then false
    else listLtB as bs

/-- Lexicographic comparison of two strings. -/
def strLtB (a b : String) : Bool := listLtB a.data b.data

/-- `String.prototype.startsWith`. -/
def startsWithB (s pre : String) : Bool := pre.data.isPrefixOf s.data

/-- `String.prototype.split('-')` on the character list. -/
def splitDashList : List Char → List (List Char)
  | [] => [[]]
  | c :: cs =>
    if c = '-' then [] :: splitDashList cs
    else
      match splitDashList cs with
      | [] => [[c]]
      | p :: ps => (c :: p) :: ps

/-- `String.prototype.split('-')`. -/
def splitDash (s : String) : List String := (splitDashList s.data).map String.mk

/-- `parseInt(s, 10)` for the non-negative inputs the service builds,
with the `NaN → 0` mapping `extractSequenceNumber` applies. -/
def parseIntNat (s : String) : Nat :=
  let ds := s.data.takeWhile Char.isDigit
  if ds.isEmpty then 0
  else ds.foldl (fun a c => a * 10 + (c.toNat - 48)) 0

/-! ## Certificate numbering (`certificate-number.service.ts`) -/

/-- `formatDateForCertificate`: `YYYYMMDD` of the generation day. -/
def formatDateForCertificate (date : CivilDate) : String :=
  let year := intRepr date.year
  let month := padStartZeros 2 (natRepr date.month)
  let day := padStartZeros 2 (natRepr date.day)
  year ++ month ++ day

/-- `extractSequenceNumber`: the third dash-separated component, parsed;
`0` when the shape or the parse fails. -/
def extractSequenceNumber (certificateNumber : String) : Nat :=
  let parts := splitDash certificateNumber
  if parts.length ≠ 3 then 0
  else parseIntNat (parts.getD 2 "")

/-- The `findFirst ... orderBy certificateNumber desc` query: the
lexicographically greatest element. -/
def findFirstDescending (l : List String) : Option String :=
  l.foldl
    (fun acc c =>
      match acc with
      | none => some c
      | some m => if strLtB m c then some c else some m)
    none

/-- `generateCertificateNumber`, over the list of already stored
certificate numbers; `today` is the injected clock. -/
def generateCertificateNumber (today : CivilDate)
    (certificateNumbers : List String) : String :=
  let dateString := formatDateForCertificate today
  let pre := "CP-" ++ dateString ++ "-"
  let lastCertificate :=
    findFirstDescending (certificateNumbers.filter fun c => startsWithB c pre)
  let sequence :=
    match lastCertificate with
    | none => 1
    | some last => extractSequenceNumber last + 1
  pre ++ padStartZeros 4 (natRepr sequence)

/-! ## Certificate validity (`certificate-verification.service.ts`) -/

def RESIDENTIAL_VALIDITY_YEARS : Nat := 2
def REAL_ESTATE_VALIDITY_DAYS : Nat := 90

/-- `calculateValidUntil`: two years after `validFrom` for residential
certificates, 90 days for real-estate ones. -/
def calculateValidUntil (certType : CertType) (validFrom : CivilDate) :
    CivilDate :=
  if certType = .residential then
    mkJsDate (validFrom.year + RESIDENTIAL_VALIDITY_YEARS) validFrom.month
      validFrom.day
  else addDays validFrom REAL_ESTATE_VALIDITY_DAYS

/-! ## Certificate generation -/

/-- The fixed kit-type → issuance-type mapping (`standard_long` orders
produce `long_term` kits). -/
def kitTypeToCertType : KitType → CertType
  | .long_term => .residential
  | .real_estate_short => .real_estate

/-- Body of `POST /certificates`. -/
structure CreateCertificateInput where
  resultId : String
  certType : CertType
  validFrom : Option CivilDate := none
  deriving DecidableEq, Repr

/-- Modelled from the spec: the repository ships no
`certificates.routes.ts` source, only the route logic recorded in
`PHASE5_PLAN.md` and §4.3 of the design.  `POST /certificates` verifies
the Result exists, rejects a duplicate Certificate, rejects an issuance
type inconsistent with the owning session's kit type, allocates the next
certificate number, computes `validFrom` (caller value or now) and
`validUntil`, persists the Certificate with status `valid` and flips the
Result's `isImmutable` in the same logical operation. -/
def generateCertificate (db : Db) (body : CreateCertificateInput)
    (newId : String) (now : CivilDate) : Db × Except HttpError Certificate :=
  match db.results.find? (fun r => r.id == body.resultId) with
  | none => (db, .error .notFoundResult)
  | some result =>
    match db.certificates.find? (fun c => c.resultId == body.resultId) with
    | some _ => (db, .error .conflictCertificateExists)
    | none =>
      match findSession db.sessions result.testSessionId with
      | none => (db, .error .notFoundTestSession)
      | some session =>
        if body.certType ≠ kitTypeToCertType session.kitType then
          (db, .error .badRequestCertTypeMismatch)
        else
          let certificateNumber :=
            generateCertificateNumber now
              (db.certificates.map fun c => c.certificateNumber)
          let validFrom := body.validFrom.getD now
          let validUntil := calculateValidUntil body.certType validFrom
          let cert : Certificate :=
            { id := newId
              resultId := body.resultId
              homeId := session.homeId
              certificateNumber := certificateNumber
              certType := body.certType
              status := .valid
              validFrom := validFrom
              validUntil := validUntil }
          ({ db with
              certificates := db.certificates ++ [cert]
              results := db.results.map fun r =>
                if r.id == body.resultId then { r with isImmutable := true }
                else r },
            .ok cert)

/-- `PATCH /certificates/:id/supersede` (from the same plan): set the
status to `superseded` and stamp `supersededAt`; the Result stays
locked. -/
def supersedeCertificate (db : Db) (id : String) (now : CivilDate) :
    Db × Except HttpError Unit :=
  match db.certificates.find? (fun c => c.id == id) with
  | none => (db, .error .notFoundResult)
  | some _ =>
    ({ db with
        certificates := db.certificates.map fun c =>
          if c.id == id then
            { c with status := .superseded, supersededAt := some now }
          else c },
      .ok ())

/-! ## Helper lemmas -/

theorem findSession_updateSessionStore (db : SessionStore) (id : String)
    (s : TestSession) :
    findSession (updateSessionStore db id s) id =
      (findSession db id).map fun _ => s := by
  induction db with
  | nil => rfl
  | cons e rest ih =>
    obtain ⟨k, v⟩ := e
    show findSession
      ((if k = id then (k, s) else (k, v)) :: updateSessionStore rest id s) id = _
    by_cases h : k = id
    · rw [if_pos h]
      show (if k = id then some s else _) = _
      rw [if_pos h]
      show _ = Option.map _ (if k = id then some v else findSession rest id)
      rw [if_pos h]
      rfl
    · rw [if_neg h]
      show (if k = id then some v else findSession (updateSessionStore rest id s) id) = _
      rw [if_neg h]
      show _ = Option.map _ (if k = id then some v else findSession rest id)
      rw [if_neg h]
      exact ih

theorem validateStatusTransition_ok_iff :
    ∀ c t : SessionStatus,
      validateStatusTransition c t = .ok () ↔ c = t ∨ t ∈ STATE_TRANSITIONS c := by
  decide

theorem executeTransition_ok_elim {id : String} {t : SessionStatus}
    {now : CivilDate} {db db' : SessionStore}
    (h : executeTransition id t now db = .ok db') :
    ∃ s, findSession db id = some s ∧
      validateStatusTransition s.status t = .ok () ∧
      db' = updateSessionStore db id (transitionedSession s t now) := by
  unfold executeTransition at h
  cases hs : findSession db id with
  | none => rw [hs] at h; exact absurd h (by simp)
  | some s =>
    rw [hs] at h
    dsimp only at h
    cases hv : validateStatusTransition s.status t with
    | error e =>
      rw [hv] at h
      exact absurd h (by simp)
    | ok u =>
      cases u
      rw [hv] at h
      dsimp only at h
      exact ⟨s, rfl, hv, by injection h with h'; exact h'.symm⟩

/-! ## The claims -/

/-- The transition table as the specification writes it
(`ordered→{active,cancelled}`, `active→{retrieval_due,cancelled}`,
`retrieval_due→{mailed,expired,cancelled}`, `mailed→{results_pending,
cancelled}`, `results_pending→{complete,cancelled}`, terminals→{}). -/
def specAllowedTargets : SessionStatus → List SessionStatus
  | .ordered => [.active, .cancelled]
  | .active => [.retrieval_due, .cancelled]
  | .retrieval_due => [.mailed, .expired, .cancelled]
  | .mailed => [.results_pending, .cancelled]
  | .results_pending => [.complete, .cancelled]
  | .complete => []
  | .expired => []
  | .cancelled => []

/-- C1: for every pair of statuses, `validateStatusTransition` succeeds
silently when they are equal, succeeds exactly when the target is in the
allowed-target set of the spec's transition table, and otherwise fails
with the invalid-transition conflict error carrying the current state and
the allowed-target list; `getNextAllowedStatuses` returns that set, empty
for the terminal states. -/
theorem validateTransition_matches_spec_table :
    ∀ current target : SessionStatus,
      (current = target →
        validateStatusTransition current target = .ok ()) ∧
      (current ≠ target → target ∈ specAllowedTargets current →
        validateStatusTransition current target = .ok ()) ∧
      (current ≠ target → target ∉ specAllowedTargets current →
        validateStatusTransition current target =
          .error (.invalidTransition current target
            (specAllowedTargets current))) ∧
      getNextAllowedStatuses current = specAllowedTargets current ∧
      ((current = .complete ∨ current = .expired ∨ current = .cancelled) →
        getNextAllowedStatuses current = []) := by
  decide

/-- Witness for C1 at a concrete illegal pair. -/
theorem validateTransition_matches_spec_table_witness :
    validateStatusTransition .retrieval_due .active =
      .error (.invalidTransition .retrieval_due .active
        [.mailed, .expired, .cancelled]) :=
  (validateTransition_matches_spec_table .retrieval_due .active).2.2.1
    (by decide) (by decide)

/-- C9: the risk classifier is the four-band threshold map and the
validity predicate accepts exactly `0 ≤ v ≤ 10000`, with the spec's
sample points. -/
theorem calculateRiskZone_bands_and_validity :
    (∀ v : ℚ,
      (v < 200 → calculateRiskZone v = .below_guideline) ∧
      (200 ≤ v → v < 600 → calculateRiskZone v = .caution) ∧
      (600 ≤ v → v < 800 → calculateRiskZone v = .action_required) ∧
      (800 ≤ v → calculateRiskZone v = .urgent_action) ∧
      (isValidRadonMeasurement v = true ↔ 0 ≤ v ∧ v ≤ 10000)) ∧
    calculateRiskZone 199 = .below_guideline ∧
    calculateRiskZone 200 = .caution ∧
    calculateRiskZone 599 = .caution ∧
    calculateRiskZone 600 = .action_required ∧
    calculateRiskZone 799 = .action_required ∧
    calculateRiskZone 800 = .urgent_action ∧
    isValidRadonMeasurement (-1) = false ∧
    isValidRadonMeasurement 10000 = true ∧
    isValidRadonMeasurement 10001 = false := by
  refine ⟨fun v => ?_, by decide, by decide, by decide, by decide, by decide,
    by decide, by decide, by decide, by decide⟩
  refine ⟨fun h1 => ?_, fun h2 h3 => ?_, fun h4 h5 => ?_, fun h6 => ?_, ?_⟩
  · simp only [calculateRiskZone, THRESHOLD_GUIDELINE]
    rw [if_pos h1]
  · simp only [calculateRiskZone, THRESHOLD_GUIDELINE, THRESHOLD_CAUTION]
    rw [if_neg (by linarith), if_pos h3]
  · simp only [calculateRiskZone, THRESHOLD_GUIDELINE, THRESHOLD_CAUTION,
      THRESHOLD_ACTION]
    rw [if_neg (by linarith), if_neg (by linarith), if_pos h5]
  · simp only [calculateRiskZone, THRESHOLD_GUIDELINE, THRESHOLD_CAUTION,
      THRESHOLD_ACTION]
    rw [if_neg (by linarith), if_neg (by linarith), if_neg (by linarith)]
  · simp only [isValidRadonMeasurement, MIN_RADON_VALUE, MAX_RADON_VALUE,
      Bool.and_eq_true, decide_eq_true_eq]

/-- Witness for C9 at a concrete concentration. -/
theorem calculateRiskZone_bands_and_validity_witness :
    calculateRiskZone 450 = .caution :=
  ((calculateRiskZone_bands_and_validity.1 450).2.1 (by norm_num) (by norm_num))

/-- C10: executing a transition whose target equals the current status
succeeds for every status, terminal ones included, and rewrites the very
same session row, leaving the status unchanged. -/
theorem executeTransition_self_is_noop (db : SessionStore) (id : String)
    (now : CivilDate) (s : TestSession) (hs : findSession db id = some s) :
    executeTransition id s.status now db = .ok (updateSessionStore db id s) ∧
    findSession (updateSessionStore db id s) id = some s := by
  have htr : transitionedSession s s.status now = s := by
    unfold transitionedSession
    by_cases ho : s.status = .ordered
    · rw [if_neg]
      rintro ⟨_, hact⟩
      rw [ho] at hact
      exact absurd hact (by decide)
    · rw [if_neg (fun hc => ho hc.1)]
  constructor
  · unfold executeTransition
    rw [hs]
    dsimp only
    have hv : validateStatusTransition s.status s.status = .ok () := by
      unfold validateStatusTransition
      rw [if_pos rfl]
    rw [hv]
    dsimp only
    rw [htr]
  · rw [findSession_updateSessionStore, hs, Option.map_some']

/-- A concrete cancelled session for the C10 witness. -/
def cancelledSessionW : TestSession :=
  { homeId := "h1", kitType := .long_term, status := .cancelled }

/-- Witness for C10 on a cancelled (terminal) session. -/
theorem executeTransition_self_is_noop_witness :
    executeTransition "s1" .cancelled ⟨2026, 1, 5⟩ [("s1", cancelledSessionW)] =
      .ok [("s1", cancelledSessionW)] :=
  (executeTransition_self_is_noop [("s1", cancelledSessionW)] "s1"
    ⟨2026, 1, 5⟩ cancelledSessionW (by rfl)).1

/-- C3: from `ordered`, executing the transition to `active` stamps
`activatedAt = now` and writes, in the same update, the expected
completion date (`+ 91` calendar days for `long_term`, `+ 4` for
`real_estate_short`) and the retrieval-due date (`+ 80` resp. `+ 2`
days), leaving all three fields non-null; no other transition writes
these derived fields. -/
theorem orderedToActive_stamps_timeline :
    (∀ (db : SessionStore) (id : String) (now : CivilDate) (s : TestSession),
      findSession db id = some s → s.status = .ordered →
      executeTransition id .active now db =
        .ok (updateSessionStore db id
          { s with
              status := .active
              activatedAt := some now
              expectedCompletionDate :=
                some (addDays now (if s.kitType = .long_term then 91 else 4))
              retrievalDueAt :=
                some (addDays now (if s.kitType = .long_term then 80 else 2)) })) ∧
    (∀ (db db' : SessionStore) (id : String) (now : CivilDate)
      (s s' : TestSession) (target : SessionStatus),
      findSession db id = some s →
      ¬(s.status = .ordered ∧ target = .active) →
      executeTransition id target now db = .ok db' →
      findSession db' id = some s' →
      s'.activatedAt = s.activatedAt ∧
      s'.expectedCompletionDate = s.expectedCompletionDate ∧
      s'.retrievalDueAt = s.retrievalDueAt) := by
  constructor
  · intro db id now s hs ho
    unfold executeTransition
    rw [hs]
    dsimp only
    have hv : validateStatusTransition s.status .active = .ok () := by
      rw [validateStatusTransition_ok_iff]
      right
      rw [ho]
      decide
    rw [hv]
    dsimp only
    unfold transitionedSession
    rw [if_pos ⟨ho, rfl⟩]
    unfold calculateExpectedCompletionDate calculateRetrievalDueAt
      LONG_TERM_DURATION_DAYS SHORT_TERM_DURATION_DAYS
      LONG_TERM_RETRIEVAL_DUE_DAYS SHORT_TERM_RETRIEVAL_DUE_DAYS
    rfl
  · intro db db' id now s s' target hs hno hexec hs'
    obtain ⟨s0, hs0, hv0, hdb'⟩ := executeTransition_ok_elim hexec
    rw [hs] at hs0
    injection hs0 with hs0
    subst hs0
    rw [hdb', findSession_updateSessionStore, hs, Option.map_some'] at hs'
    injection hs' with hs'
    subst hs'
    unfold transitionedSession
    rw [if_neg hno]
    exact ⟨rfl, rfl, rfl⟩

/-- A concrete ordered long-term session for the C3 witness. -/
def orderedSessionW : TestSession :=
  { homeId := "h1", kitType := .long_term, status := .ordered }

/-- The session `orderedSessionW` becomes when activated on 2026-01-05. -/
def activatedSessionW : TestSession :=
  { orderedSessionW with
      status := .active
      activatedAt := some ⟨2026, 1, 5⟩
      expectedCompletionDate := some (addDays ⟨2026, 1, 5⟩ 91)
      retrievalDueAt := some (addDays ⟨2026, 1, 5⟩ 80) }

/-- Witness for C3: a concrete ordered long-term session activated on
2026-01-05 gets the 91/80-day timeline. -/
theorem orderedToActive_stamps_timeline_witness :
    executeTransition "s1" .active ⟨2026, 1, 5⟩ [("s1", orderedSessionW)] =
      .ok (updateSessionStore [("s1", orderedSessionW)] "s1" activatedSessionW) :=
  orderedToActive_stamps_timeline.1 [("s1", orderedSessionW)] "s1"
    ⟨2026, 1, 5⟩ orderedSessionW (by rfl) (by rfl)

theorem transitionedSession_status (s : TestSession) (t : SessionStatus)
    (now : CivilDate) : (transitionedSession s t now).status = t := by
  unfold transitionedSession
  split
  · rfl
  · rfl

theorem executeTransition_ok_status {id : String} {t : SessionStatus}
    {now : CivilDate} {db db' : SessionStore} {s : TestSession}
    (hs : findSession db id = some s)
    (h : executeTransition id t now db = .ok db') :
    findSession db' id = some (transitionedSession s t now) ∧
      (t = s.status ∨ t ∈ STATE_TRANSITIONS s.status) := by
  obtain ⟨s0, hs0, hv, hdb⟩ := executeTransition_ok_elim h
  rw [hs] at hs0
  injection hs0 with e
  subst e
  refine ⟨?_, ?_⟩
  · rw [hdb, findSession_updateSessionStore, hs, Option.map_some']
  · rcases (validateStatusTransition_ok_iff s.status t).1 hv with h1 | h2
    · exact Or.inl h1.symm
    · exact Or.inr h2

/-- The session table for the C2 counterexample: one `active` session. -/
def mailFromActiveDbW : SessionStore :=
  [("s1", { homeId := "h1", kitType := .long_term, status := .active })]

/-- Counterexample to C2 as stated: the mail action endpoint moves an
`active` session directly to `mailed`, although `mailed` is not an
allowed target of `active` in the transition graph. -/
theorem mail_endpoint_bypasses_state_machine :
    (findSession (runSessionOp (.mail none) "s1" ⟨2026, 1, 5⟩
        mailFromActiveDbW) "s1").map TestSession.status =
      some .mailed ∧
    SessionStatus.mailed ∉ STATE_TRANSITIONS .active ∧
    SessionStatus.mailed ≠ SessionStatus.active := by
  decide

/-- C2 (amended): every status-writing operation of the session API
either keeps the status, follows an edge of the transition graph, or is
the mail endpoint's direct `active → mailed` jump; and no operation moves
a session out of a terminal status. -/
theorem sessionOps_follow_graph_or_mail_jump (op : SessionOp)
    (db : SessionStore) (id : String) (now : CivilDate) (s s' : TestSession)
    (hs : findSession db id = some s)
    (hs' : findSession (runSessionOp op id now db) id = some s') :
    (s'.status = s.status ∨ s'.status ∈ STATE_TRANSITIONS s.status ∨
      (∃ t, op = .mail t ∧ s.status = .active ∧ s'.status = .mailed)) ∧
    ((s.status = .complete ∨ s.status = .expired ∨ s.status = .cancelled) →
      s'.status = s.status) := by
  cases op with
  | exec t =>
    unfold runSessionOp at hs'
    dsimp only at hs'
    cases hE : executeTransition id t now db with
    | error e =>
      rw [hE] at hs'
      dsimp only at hs'
      rw [hs] at hs'
      injection hs' with e'
      subst e'
      exact ⟨Or.inl rfl, fun _ => rfl⟩
    | ok db1 =>
      rw [hE] at hs'
      dsimp only at hs'
      obtain ⟨hfind, hval⟩ := executeTransition_ok_status hs hE
      rw [hfind] at hs'
      injection hs' with e'
      subst e'
      rw [transitionedSession_status]
      constructor
      · rcases hval with h1 | h2
        · exact Or.inl h1
        · exact Or.inr (Or.inl h2)
      · intro hterm
        rcases hval with h1 | h2
        · exact h1
        · exfalso
          rcases hterm with h | h | h <;> rw [h] at h2 <;>
            simp [STATE_TRANSITIONS] at h2
  | put body =>
    unfold runSessionOp at hs'
    dsimp only at hs'
    cases hP : putTestSession id body now db with
    | error e =>
      rw [hP] at hs'
      dsimp only at hs'
      rw [hs] at hs'
      injection hs' with e'
      subst e'
      exact ⟨Or.inl rfl, fun _ => rfl⟩
    | ok db1 =>
      rw [hP] at hs'
      dsimp only at hs'
      -- dissect the PUT handler
      unfold putTestSession at hP
      rw [hs] at hP
      dsimp only at hP
      cases hb : body.status with
      | none =>
        rw [hb] at hP
        dsimp only at hP
        by_cases hts : body.retrievedAt.isSome || body.mailedAt.isSome
        · rw [if_pos hts] at hP
          rw [hs] at hP
          dsimp only at hP
          injection hP with hP
          subst hP
          rw [findSession_updateSessionStore, hs, Option.map_some'] at hs'
          injection hs' with e'
          subst e'
          have : ∀ (a : Option CivilDate) (x : TestSession),
              (match a with
                | some t => { x with retrievedAt := some t }
                | none => x).status = x.status := by
            intro a x; cases a <;> rfl
          have h2 : ∀ (a : Option CivilDate) (x : TestSession),
              (match a with
                | some t => { x with mailedAt := some t }
                | none => x).status = x.status := by
            intro a x; cases a <;> rfl
          rw [h2, this]
          exact ⟨Or.inl rfl, fun _ => rfl⟩
        · rw [if_neg hts] at hP
          injection hP with hP
          subst hP
          rw [hs] at hs'
          injection hs' with e'
          subst e'
          exact ⟨Or.inl rfl, fun _ => rfl⟩
      | some st =>
        rw [hb] at hP
        dsimp only at hP
        cases hv : validateStatusTransition s.status st with
        | error e =>
          rw [hv] at hP
          exact absurd hP (by simp)
        | ok u =>
          cases u
          rw [hv] at hP
          dsimp only at hP
          cases hE : executeTransition id st now db with
          | error e =>
            rw [hE] at hP
            exact absurd hP (by simp)
          | ok dbE =>
            rw [hE] at hP
            dsimp only at hP
            obtain ⟨hfind, -⟩ := executeTransition_ok_status hs hE
            have hval := (validateStatusTransition_ok_iff s.status st).1 hv
            by_cases hts : body.retrievedAt.isSome || body.mailedAt.isSome
            · rw [if_pos hts] at hP
              rw [hfind] at hP
              dsimp only at hP
              injection hP with hP
              subst hP
              rw [findSession_updateSessionStore, hfind, Option.map_some'] at hs'
              injection hs' with e'
              subst e'
              have hst1 : ∀ (a : Option CivilDate) (x : TestSession),
                  (match a with
                    | some t => { x with retrievedAt := some t }
                    | none => x).status = x.status := by
                intro a x; cases a <;> rfl
              have hst2 : ∀ (a : Option CivilDate) (x : TestSession),
                  (match a with
                    | some t => { x with mailedAt := some t }
                    | none => x).status = x.status := by
                intro a x; cases a <;> rfl
              rw [hst2, hst1, transitionedSession_status]
              constructor
              · rcases hval with h1 | h2
                · exact Or.inl h1.symm
                · exact Or.inr (Or.inl h2)
              · intro hterm
                rcases hval with h1 | h2
                · exact h1.symm
                · exfalso
                  rcases hterm with h | h | h <;> rw [h] at h2 <;>
                    simp [STATE_TRANSITIONS] at h2
            · rw [if_neg hts] at hP
              injection hP with hP
              subst hP
              rw [hfind] at hs'
              injection hs' with e'
              subst e'
              rw [transitionedSession_status]
              constructor
              · rcases hval with h1 | h2
                · exact Or.inl h1.symm
                · exact Or.inr (Or.inl h2)
              · intro hterm
                rcases hval with h1 | h2
                · exact h1.symm
                · exfalso
                  rcases hterm with h | h | h <;> rw [h] at h2 <;>
                    simp [STATE_TRANSITIONS] at h2
  | retrieve t =>
    unfold runSessionOp retrieveTestSession at hs'
    rw [hs] at hs'
    dsimp only at hs'
    rw [findSession_updateSessionStore, hs, Option.map_some'] at hs'
    injection hs' with e'
    subst e'
    exact ⟨Or.inl rfl, fun _ => rfl⟩
  | mail t =>
    unfold runSessionOp mailTestSession at hs'
    rw [hs] at hs'
    dsimp only at hs'
    by_cases hm : s.status ∈ ([.active, .retrieval_due] : List SessionStatus)
    · rw [if_pos hm] at hs'
      dsimp only at hs'
      rw [findSession_updateSessionStore, hs, Option.map_some'] at hs'
      injection hs' with e'
      subst e'
      have hm' : s.status = .active ∨ s.status = .retrieval_due := by
        simpa only [List.mem_cons, List.mem_singleton, List.not_mem_nil,
          or_false] using hm
      constructor
      · rcases hm' with h | h
        · exact Or.inr (Or.inr ⟨t, rfl, h, rfl⟩)
        · refine Or.inr (Or.inl ?_)
          rw [h]
          show SessionStatus.mailed ∈ STATE_TRANSITIONS .retrieval_due
          decide
      · intro hterm
        exfalso
        rcases hm' with h | h <;> rcases hterm with h' | h' | h' <;>
          rw [h'] at h <;> exact absurd h (by decide)
    · rw [if_neg hm] at hs'
      dsimp only at hs'
      rw [hs] at hs'
      injection hs' with e'
      subst e'
      exact ⟨Or.inl rfl, fun _ => rfl⟩
  | cancel =>
    unfold runSessionOp cancelTestSession at hs'
    rw [hs] at hs'
    dsimp only at hs'
    cases hv : validateStatusTransition s.status .cancelled with
    | error e =>
      rw [hv] at hs'
      dsimp only at hs'
      rw [hs] at hs'
      injection hs' with e'
      subst e'
      exact ⟨Or.inl rfl, fun _ => rfl⟩
    | ok u =>
      cases u
      rw [hv] at hs'
      dsimp only at hs'
      have hval := (validateStatusTransition_ok_iff s.status .cancelled).1 hv
      cases hE : executeTransition id .cancelled now db with
      | error e =>
        rw [hE] at hs'
        dsimp only at hs'
        rw [hs] at hs'
        injection hs' with e'
        subst e'
        exact ⟨Or.inl rfl, fun _ => rfl⟩
      | ok dbE =>
        rw [hE] at hs'
        dsimp only at hs'
        obtain ⟨hfind, -⟩ := executeTransition_ok_status hs hE
        rw [hfind] at hs'
        injection hs' with e'
        subst e'
        rw [transitionedSession_status]
        constructor
        · rcases hval with h1 | h2
          · exact Or.inl h1.symm
          · exact Or.inr (Or.inl h2)
        · intro hterm
          rcases hval with h1 | h2
          · exact h1.symm
          · exfalso
            rcases hterm with h | h | h <;> rw [h] at h2 <;>
              simp [STATE_TRANSITIONS] at h2

/-- A `retrieval_due` session table for the C2 witness. -/
def retrievalDueDbW : SessionStore :=
  [("s1", { homeId := "h1", kitType := .long_term, status := .retrieval_due })]

/-- Witness for the amended C2: the mail endpoint on a `retrieval_due`
session takes a graph edge. -/
theorem sessionOps_follow_graph_or_mail_jump_witness :
    (TestSession.mk "h1" .long_term .mailed none none none none
        (some ⟨2026, 1, 5⟩)).status = .retrieval_due ∨
    (TestSession.mk "h1" .long_term .mailed none none none none
        (some ⟨2026, 1, 5⟩)).status ∈ STATE_TRANSITIONS .retrieval_due ∨
    (∃ t, (SessionOp.mail none) = SessionOp.mail t ∧
      SessionStatus.retrieval_due = SessionStatus.active ∧
      (TestSession.mk "h1" .long_term .mailed none none none none
        (some ⟨2026, 1, 5⟩)).status = .mailed) :=
  (sessionOps_follow_graph_or_mail_jump (.mail none) retrievalDueDbW "s1"
    ⟨2026, 1, 5⟩
    { homeId := "h1", kitType := .long_term, status := .retrieval_due }
    (TestSession.mk "h1" .long_term .mailed none none none none
      (some ⟨2026, 1, 5⟩))
    (by rfl) (by rfl)).1

/-- Counterexample to C8 as stated: `executeTransition` on a nonexistent
session id raises the Conflict error class (with the message 'Test
session not found'), not the NotFound class. -/
theorem executeTransition_missing_id_is_conflict :
    executeTransition "nope" .active ⟨2026, 1, 5⟩ [] =
      .error .conflictTestSessionNotFound ∧
    HttpError.kind .conflictTestSessionNotFound = .conflict ∧
    HttpError.kind .conflictTestSessionNotFound ≠ .notFound := by
  decide

/-- C8 (amended): an illegal transition request fails with the
client-reportable invalid-transition conflict error carrying the current
state and the allowed targets, and the session table is untouched
(validation precedes the only write); a nonexistent session id fails
before any transition logic runs, though with the Conflict error class
carrying the message 'Test session not found' rather than the NotFound
class. -/
theorem executeTransition_failure_semantics :
    (∀ (db : SessionStore) (id : String) (t : SessionStatus)
      (now : CivilDate) (s : TestSession),
      findSession db id = some s → t ≠ s.status →
      t ∉ STATE_TRANSITIONS s.status →
      executeTransition id t now db =
        .error (.invalidTransition s.status t (STATE_TRANSITIONS s.status)) ∧
      HttpError.kind
        (.invalidTransition s.status t (STATE_TRANSITIONS s.status)) =
          .conflict ∧
      runSessionOp (.exec t) id now db = db) ∧
    (∀ (db : SessionStore) (id : String) (t : SessionStatus)
      (now : CivilDate),
      findSession db id = none →
      executeTransition id t now db = .error .conflictTestSessionNotFound ∧
      HttpError.kind .conflictTestSessionNotFound = .conflict ∧
      runSessionOp (.exec t) id now db = db) := by
  constructor
  · intro db id t now s hs hne hmem
    have hexec : executeTransition id t now db =
        .error (.invalidTransition s.status t (STATE_TRANSITIONS s.status)) := by
      unfold executeTransition
      rw [hs]
      dsimp only
      have hv : validateStatusTransition s.status t =
          .error (.invalidTransition s.status t (STATE_TRANSITIONS s.status)) := by
        unfold validateStatusTransition
        rw [if_neg (fun hc => hne hc.symm), if_neg hmem]
      rw [hv]
    refine ⟨hexec, rfl, ?_⟩
    unfold runSessionOp
    dsimp only
    rw [hexec]
  · intro db id t now hs
    have hexec : executeTransition id t now db =
        .error .conflictTestSessionNotFound := by
      unfold executeTransition
      rw [hs]
    refine ⟨hexec, rfl, ?_⟩
    unfold runSessionOp
    dsimp only
    rw [hexec]

/-- Witness for the amended C8 at a concrete illegal transition and a
concrete missing id. -/
theorem executeTransition_failure_semantics_witness :
    (executeTransition "s1" .complete ⟨2026, 1, 5⟩ [("s1", cancelledSessionW)] =
      .error (.invalidTransition .cancelled .complete []) ∧
    HttpError.kind (.invalidTransition .cancelled .complete []) = .conflict ∧
    runSessionOp (.exec .complete) "s1" ⟨2026, 1, 5⟩
      [("s1", cancelledSessionW)] = [("s1", cancelledSessionW)]) ∧
    (executeTransition "missing" .active ⟨2026, 1, 5⟩ [] =
      .error .conflictTestSessionNotFound ∧
    HttpError.kind .conflictTestSessionNotFound = .conflict ∧
    runSessionOp (.exec .active) "missing" ⟨2026, 1, 5⟩ [] = []) :=
  ⟨executeTransition_failure_semantics.1 [("s1", cancelledSessionW)] "s1"
      .complete ⟨2026, 1, 5⟩ cancelledSessionW (by rfl) (by decide) (by decide),
    executeTransition_failure_semantics.2 [] "missing" .active ⟨2026, 1, 5⟩
      (by rfl)⟩

/-- A session sitting in `mailed` status. -/
def mailedSessionW : TestSession :=
  { homeId := "h1", kitType := .long_term, status := .mailed,
    activatedAt := some ⟨2026, 1, 5⟩,
    expectedCompletionDate := some ⟨2026, 4, 6⟩,
    retrievalDueAt := some ⟨2026, 3, 26⟩,
    retrievedAt := some ⟨2026, 2, 20⟩,
    mailedAt := some ⟨2026, 2, 21⟩ }

/-- The store for the C4 evaluation: one `mailed` session, no results. -/
def mailedDbW : Db :=
  { sessions := [("s1", mailedSessionW)], results := [], certificates := [] }

/-- The request body for the C4 evaluation. -/
def c4BodyW : CreateResultInput :=
  { testSessionId := "s1", valueBqm3 := 450, recordedAt := ⟨2026, 3, 1⟩ }

/-- C4 evaluated at the failing input: the results route admits a
`mailed` session, creates the Result row, then calls
`executeTransition(sessionId, 'complete')`, which the state machine
rejects because `complete` is not an allowed target of `mailed`; the
request therefore fails with the invalid-transition conflict, the session
stays `mailed`, and the already-committed Result row survives — instead
of the session being driven to `complete` as the claim states. -/
theorem createResult_from_mailed_fails :
    (createResultRoute mailedDbW "admin1" c4BodyW "r1" ⟨2026, 3, 1⟩).2 =
      .error (.invalidTransition .mailed .complete
        [.results_pending, .cancelled]) ∧
    (findSession
        (createResultRoute mailedDbW "admin1" c4BodyW "r1" ⟨2026, 3, 1⟩).1.sessions
        "s1").map TestSession.status = some .mailed ∧
    ((createResultRoute mailedDbW "admin1" c4BodyW "r1" ⟨2026, 3, 1⟩).1.results.map
        Result.testSessionId) = ["s1"] ∧
    SessionStatus.complete ∉ STATE_TRANSITIONS .mailed := by
  decide

/-! ## Result immutability -/

/-- Every immutable result is vouched for by a certificate.  This is the
cross-entity invariant the certificate flow maintains: the only write
that sets `isImmutable` is certificate generation, which inserts the
certificate in the same step, and no operation removes certificates. -/
def ImmutableHasCert (db : Db) : Prop :=
  ∀ r ∈ db.results, r.isImmutable = true →
    ∃ c ∈ db.certificates, c.resultId = r.id

theorem appliedResultUpdate_id (r : Result) (body : UpdateResultInput) :
    (appliedResultUpdate r body).id = r.id := by
  unfold appliedResultUpdate
  cases body.valueBqm3 <;> cases body.labReference <;>
    cases body.recordedAt <;> rfl

theorem appliedResultUpdate_isImmutable (r : Result)
    (body : UpdateResultInput) :
    (appliedResultUpdate r body).isImmutable = r.isImmutable := by
  unfold appliedResultUpdate
  cases body.valueBqm3 <;> cases body.labReference <;>
    cases body.recordedAt <;> rfl

theorem appliedResultUpdate_value (r : Result) (body : UpdateResultInput)
    (v : ℚ) (hv : body.valueBqm3 = some v) :
    (appliedResultUpdate r body).valueBqm3 = v ∧
    (appliedResultUpdate r body).zone = calculateRiskZone v := by
  unfold appliedResultUpdate
  rw [hv]
  cases body.labReference <;> cases body.recordedAt <;> exact ⟨rfl, rfl⟩

/-- The certificate table never shrinks and the result table only gains
rows that start mutable under `createResultRoute`. -/
theorem createResultRoute_shape (db : Db) (u : String)
    (body : CreateResultInput) (newId : String) (now : CivilDate) :
    (createResultRoute db u body newId now).1.certificates =
      db.certificates ∧
    ((createResultRoute db u body newId now).1.results = db.results ∨
      ∃ nr : Result, nr.isImmutable = false ∧
        (createResultRoute db u body newId now).1.results =
          db.results ++ [nr]) := by
  unfold createResultRoute
  by_cases hval : (!isValidRadonMeasurement body.valueBqm3) = true
  · rw [if_pos hval]
    exact ⟨rfl, Or.inl rfl⟩
  · rw [if_neg hval]
    cases hs : findSession db.sessions body.testSessionId with
    | none => exact ⟨rfl, Or.inl rfl⟩
    | some ts =>
      dsimp only
      by_cases hst : ts.status ∉
          ([.mailed, .results_pending, .complete] : List SessionStatus)
      · rw [if_pos hst]
        exact ⟨rfl, Or.inl rfl⟩
      · rw [if_neg hst]
        cases hf : db.results.find?
            (fun r => r.testSessionId == body.testSessionId) with
        | some r0 => exact ⟨rfl, Or.inl rfl⟩
        | none =>
          by_cases hc : ts.status ≠ SessionStatus.complete
          · rw [if_pos hc]
            dsimp only
            cases hE : executeTransition body.testSessionId .complete now
                db.sessions with
            | error e => exact ⟨rfl, Or.inr ⟨_, rfl, rfl⟩⟩
            | ok sessions2 => exact ⟨rfl, Or.inr ⟨_, rfl, rfl⟩⟩
          · rw [if_neg hc]
            exact ⟨rfl, Or.inr ⟨_, rfl, rfl⟩⟩

/-- Preservation of the immutable-has-certificate invariant by every
store-writing operation of the result/certificate flow, plus its truth in
any store without results. -/
theorem immutableHasCert_invariant :
    (∀ (sessions : SessionStore),
      ImmutableHasCert ⟨sessions, [], []⟩) ∧
    (∀ (db : Db) (u : String) (body : CreateResultInput) (newId : String)
      (now : CivilDate), ImmutableHasCert db →
      ImmutableHasCert (createResultRoute db u body newId now).1) ∧
    (∀ (db : Db) (id : String) (body : UpdateResultInput),
      ImmutableHasCert db →
      ImmutableHasCert (updateResultRoute db id body).1) ∧
    (∀ (db : Db) (id : String), ImmutableHasCert db →
      ImmutableHasCert (deleteResultRoute db id).1) ∧
    (∀ (db : Db) (body : CreateCertificateInput) (newId : String)
      (now : CivilDate), ImmutableHasCert db →
      ImmutableHasCert (generateCertificate db body newId now).1) ∧
    (∀ (db : Db) (id : String) (now : CivilDate), ImmutableHasCert db →
      ImmutableHasCert (supersedeCertificate db id now).1) := by
  refine ⟨?_, ?_, ?_, ?_, ?_, ?_⟩
  · intro sessions r hr
    cases hr
  · intro db u body newId now h
    obtain ⟨hc, hr⟩ := createResultRoute_shape db u body newId now
    intro r hrmem himm
    rw [hc]
    rcases hr with he | ⟨nr, hnr, he⟩
    · rw [he] at hrmem
      exact h r hrmem himm
    · rw [he] at hrmem
      rcases List.mem_append.1 hrmem with hin | hnew
      · exact h r hin himm
      · rw [List.mem_singleton] at hnew
        subst hnew
        rw [hnr] at himm
        cases himm
  · intro db id body h
    unfold updateResultRoute
    cases hfind : db.results.find? (fun r => r.id == id) with
    | none => exact h
    | some er =>
      dsimp only
      by_cases him : er.isImmutable = true
      · rw [if_pos him]
        exact h
      · rw [if_neg him]
        by_cases hbad : (match body.valueBqm3 with
            | some v => !isValidRadonMeasurement v
            | none => false) = true
        · rw [if_pos hbad]
          exact h
        · rw [if_neg hbad]
          dsimp only
          intro r hrmem himm
          replace hrmem : r ∈ db.results.map fun x =>
              if (x.id == id) = true then appliedResultUpdate er body
              else x := hrmem
          rcases List.mem_map.1 hrmem with ⟨y, hy, hmap⟩
          by_cases hid : (y.id == id) = true
          · rw [if_pos hid] at hmap
            subst hmap
            rw [appliedResultUpdate_isImmutable] at himm
            exact absurd himm him
          · rw [if_neg hid] at hmap
            subst hmap
            exact h y hy himm
  · intro db id h
    unfold deleteResultRoute
    cases hfind : db.results.find? (fun r => r.id == id) with
    | none => exact h
    | some er =>
      dsimp only
      cases hfc : db.certificates.find? (fun c => c.resultId == er.id) with
      | some c => exact h
      | none =>
        dsimp only
        intro r hrmem himm
        replace hrmem : r ∈ db.results.filter fun x => !(x.id == id) := hrmem
        exact h r (List.mem_of_mem_filter hrmem) himm
  · intro db body newId now h
    unfold generateCertificate
    cases hfr : db.results.find? (fun r => r.id == body.resultId) with
    | none => exact h
    | some result =>
      dsimp only
      cases hfc : db.certificates.find? (fun c => c.resultId == body.resultId) with
      | some c => exact h
      | none =>
        dsimp only
        cases hs : findSession db.sessions result.testSessionId with
        | none => exact h
        | some session =>
          dsimp only
          by_cases hty : body.certType ≠ kitTypeToCertType session.kitType
          · rw [if_pos hty]
            exact h
          · rw [if_neg hty]
            dsimp only
            intro r hrmem himm
            replace hrmem : r ∈ db.results.map fun x =>
                if (x.id == body.resultId) = true then
                  { x with isImmutable := true }
                else x := hrmem
            rcases List.mem_map.1 hrmem with ⟨y, hy, hmap⟩
            by_cases hid : (y.id == body.resultId) = true
            · rw [if_pos hid] at hmap
              refine ⟨_, List.mem_append_right _ (List.mem_singleton.2 rfl), ?_⟩
              rw [← hmap]
              exact (eq_of_beq hid).symm
            · rw [if_neg hid] at hmap
              subst hmap
              obtain ⟨c, hcmem, hcid⟩ := h y hy himm
              exact ⟨c, List.mem_append_left _ hcmem, hcid⟩
  · intro db id now h
    unfold supersedeCertificate
    cases hfc : db.certificates.find? (fun c => c.id == id) with
    | none => exact h
    | some c0 =>
      dsimp only
      intro r hrmem himm
      replace hrmem : r ∈ db.results := hrmem
      obtain ⟨c, hcmem, hcid⟩ := h r hrmem himm
      refine ⟨if (c.id == id) = true then
          { c with status := .superseded, supersededAt := some now }
        else c, List.mem_map.2 ⟨c, hcmem, rfl⟩, ?_⟩
      by_cases hcb : (c.id == id) = true
      · rw [if_pos hcb]
        exact hcid
      · rw [if_neg hcb]
        exact hcid

/-- C6: updating an immutable Result fails with Conflict whatever the
body targets; deleting it also fails with Conflict (in every store
satisfying the invariant `ImmutableHasCert`, which
`immutableHasCert_invariant` shows all operations preserve); and an
update that changes the concentration of a mutable Result recomputes the
risk zone from the new value. -/
theorem immutableResult_conflicts_and_zone_recompute :
    (∀ (db : Db) (id : String) (body : UpdateResultInput) (r : Result),
      db.results.find? (fun x => x.id == id) = some r →
      r.isImmutable = true →
      updateResultRoute db id body = (db, .error .conflictImmutableResult) ∧
      HttpError.kind .conflictImmutableResult = .conflict) ∧
    (∀ (db : Db) (id : String) (r : Result),
      db.results.find? (fun x => x.id == id) = some r →
      r.isImmutable = true →
      ImmutableHasCert db →
      deleteResultRoute db id = (db, .error .conflictCertificateExists) ∧
      HttpError.kind .conflictCertificateExists = .conflict) ∧
    (∀ (db : Db) (id : String) (body : UpdateResultInput) (r : Result)
      (v : ℚ),
      db.results.find? (fun x => x.id == id) = some r →
      r.isImmutable = false →
      body.valueBqm3 = some v →
      isValidRadonMeasurement v = true →
      (updateResultRoute db id body).2 =
        .ok (appliedResultUpdate r body) ∧
      (appliedResultUpdate r body).valueBqm3 = v ∧
      (appliedResultUpdate r body).zone = calculateRiskZone v) := by
  refine ⟨?_, ?_, ?_⟩
  · intro db id body r hfind himm
    refine ⟨?_, rfl⟩
    unfold updateResultRoute
    rw [hfind]
    dsimp only
    rw [if_pos himm]
  · intro db id r hfind himm hinv
    refine ⟨?_, rfl⟩
    unfold deleteResultRoute
    rw [hfind]
    dsimp only
    obtain ⟨c, hcmem, hcid⟩ :=
      hinv r (List.mem_of_find?_eq_some hfind) himm
    have hsome : (db.certificates.find? fun c => c.resultId == r.id).isSome := by
      rw [List.find?_isSome]
      exact ⟨c, hcmem, beq_iff_eq.2 hcid⟩
    cases hfc : db.certificates.find? (fun c => c.resultId == r.id) with
    | none =>
      rw [hfc] at hsome
      simp at hsome
    | some c' => rfl
  · intro db id body r v hfind himm hv hval
    have h2 := appliedResultUpdate_value r body v hv
    refine ⟨?_, h2.1, h2.2⟩
    unfold updateResultRoute
    rw [hfind]
    dsimp only
    rw [if_neg (by rw [himm]; exact Bool.false_ne_true)]
    have hbad : (match body.valueBqm3 with
        | some w => !isValidRadonMeasurement w
        | none => false) = false := by
      rw [hv]
      dsimp only
      rw [hval]
      rfl
    rw [hbad]
    rw [if_neg Bool.false_ne_true]

/-- A locked result and its certificate for the C6 witness. -/
def lockedResultW : Result :=
  { id := "r1", testSessionId := "s1", valueBqm3 := 450, zone := .caution,
    enteredByUserId := "admin1", isImmutable := true,
    recordedAt := ⟨2026, 3, 1⟩ }

/-- Certificate vouching for `lockedResultW`. -/
def lockedCertW : Certificate :=
  { id := "c1", resultId := "r1", homeId := "h1",
    certificateNumber := "CP-20260301-0001", certType := .residential,
    status := .valid, validFrom := ⟨2026, 3, 1⟩,
    validUntil := ⟨2028, 3, 1⟩ }

/-- A mutable result for the C6 witness. -/
def mutableResultW : Result :=
  { id := "r2", testSessionId := "s2", valueBqm3 := 100,
    zone := .below_guideline, enteredByUserId := "admin1",
    isImmutable := false, recordedAt := ⟨2026, 3, 1⟩ }

/-- The store for the C6 witness. -/
def lockedDbW : Db :=
  { sessions := [], results := [lockedResultW, mutableResultW],
    certificates := [lockedCertW] }

/-- Witness for C6 at a concrete immutable result, a concrete delete and
a concrete concentration-changing update. -/
theorem immutableResult_conflicts_and_zone_recompute_witness :
    (updateResultRoute lockedDbW "r1" { valueBqm3 := some 50 } =
      (lockedDbW, .error .conflictImmutableResult) ∧
      HttpError.kind .conflictImmutableResult = .conflict) ∧
    (deleteResultRoute lockedDbW "r1" =
      (lockedDbW, .error .conflictCertificateExists) ∧
      HttpError.kind .conflictCertificateExists = .conflict) ∧
    ((updateResultRoute lockedDbW "r2" { valueBqm3 := some 700 }).2 =
      .ok (appliedResultUpdate mutableResultW { valueBqm3 := some 700 }) ∧
      (appliedResultUpdate mutableResultW { valueBqm3 := some 700 }).valueBqm3 = 700 ∧
      (appliedResultUpdate mutableResultW { valueBqm3 := some 700 }).zone =
        calculateRiskZone 700) :=
  ⟨immutableResult_conflicts_and_zone_recompute.1 lockedDbW "r1"
      { valueBqm3 := some 50 } lockedResultW (by decide) (by decide),
    immutableResult_conflicts_and_zone_recompute.2.1 lockedDbW "r1"
      lockedResultW (by decide) (by decide)
      (by unfold ImmutableHasCert; decide),
    immutableResult_conflicts_and_zone_recompute.2.2 lockedDbW "r2"
      { valueBqm3 := some 700 } mutableResultW 700 (by decide) (by decide)
      (by decide) (by decide)⟩

/-- C5: a successful certificate generation computes `validUntil`
deterministically from `validFrom` (`+ 2` years for a residential
certificate, `+ 90` days for a real-estate one), persists the
certificate with status `valid`, and in the very same post-state every
result row the certificate references is immutable — so no state exists
in which the certificate is present but its result still mutable. -/
theorem certificateGeneration_valid_and_atomic (db db' : Db)
    (body : CreateCertificateInput) (newId : String) (now : CivilDate)
    (cert : Certificate)
    (h : generateCertificate db body newId now = (db', .ok cert)) :
    cert.status = .valid ∧
    cert.validFrom = body.validFrom.getD now ∧
    cert.validUntil = calculateValidUntil cert.certType cert.validFrom ∧
    (cert.certType = .residential →
      cert.validUntil =
        mkJsDate (cert.validFrom.year + 2) cert.validFrom.month
          cert.validFrom.day) ∧
    (cert.certType = .real_estate →
      cert.validUntil = addDays cert.validFrom 90) ∧
    cert ∈ db'.certificates ∧
    (∀ r ∈ db'.results, r.id = cert.resultId → r.isImmutable = true) ∧
    (∃ r ∈ db.results, r.id = cert.resultId) := by
  unfold generateCertificate at h
  cases hfr : db.results.find? (fun r => r.id == body.resultId) with
  | none =>
    rw [hfr] at h
    rw [Prod.mk.injEq] at h
    exact absurd h.2 (by simp)
  | some result =>
    rw [hfr] at h
    dsimp only at h
    cases hfc : db.certificates.find? (fun c => c.resultId == body.resultId) with
    | some c0 =>
      rw [hfc] at h
      rw [Prod.mk.injEq] at h
      exact absurd h.2 (by simp)
    | none =>
      rw [hfc] at h
      dsimp only at h
      cases hs : findSession db.sessions result.testSessionId with
      | none =>
        rw [hs] at h
        rw [Prod.mk.injEq] at h
        exact absurd h.2 (by simp)
      | some session =>
        rw [hs] at h
        dsimp only at h
        by_cases hty : body.certType ≠ kitTypeToCertType session.kitType
        · rw [if_pos hty, Prod.mk.injEq] at h
          exact absurd h.2 (by simp)
        · rw [if_neg hty] at h
          rw [Prod.mk.injEq] at h
          obtain ⟨hdb', hcert⟩ := h
          injection hcert with hcert
          subst hcert
          subst hdb'
          refine ⟨rfl, rfl, rfl, ?_, ?_, ?_, ?_, ?_⟩
          · intro hres
            have hres' : body.certType = .residential := hres
            unfold calculateValidUntil RESIDENTIAL_VALIDITY_YEARS
            rw [if_pos hres']
            norm_num
          · intro hres
            have hres' : body.certType = .real_estate := hres
            unfold calculateValidUntil REAL_ESTATE_VALIDITY_DAYS
            rw [if_neg (by rw [hres']; exact fun hc => CertType.noConfusion hc)]
          · exact List.mem_append_right _ (List.mem_singleton.2 rfl)
          · intro r hrmem hrid
            replace hrmem : r ∈ db.results.map fun x =>
                if (x.id == body.resultId) = true then
                  { x with isImmutable := true }
                else x := hrmem
            rcases List.mem_map.1 hrmem with ⟨y, hy, hmap⟩
            by_cases hid : (y.id == body.resultId) = true
            · rw [if_pos hid] at hmap
              subst hmap
              rfl
            · rw [if_neg hid] at hmap
              subst hmap
              exact absurd (beq_iff_eq.2 hrid) hid
          · refine ⟨result, List.mem_of_find?_eq_some hfr, ?_⟩
            have := List.find?_some hfr
            exact eq_of_beq this

/-- A completed session for the C5 witness. -/
def completeSessionW : TestSession :=
  { homeId := "h1", kitType := .long_term, status := .complete }

/-- The mutable result the C5 witness certifies. -/
def preCertResultW : Result :=
  { id := "r1", testSessionId := "s1", valueBqm3 := 450, zone := .caution,
    enteredByUserId := "admin1", isImmutable := false,
    recordedAt := ⟨2026, 3, 1⟩ }

/-- Pre-state store for the C5 witness. -/
def preCertDbW : Db :=
  { sessions := [("s1", completeSessionW)], results := [preCertResultW],
    certificates := [] }

/-- The certificate the C5 witness produces. -/
def issuedCertW : Certificate :=
  { id := "c1", resultId := "r1", homeId := "h1",
    certificateNumber := "CP-20260302-0001", certType := .residential,
    status := .valid, validFrom := ⟨2026, 3, 2⟩,
    validUntil := ⟨2028, 3, 2⟩ }

/-- Post-state store for the C5 witness. -/
def postCertDbW : Db :=
  { sessions := [("s1", completeSessionW)],
    results := [{ preCertResultW with isImmutable := true }],
    certificates := [issuedCertW] }

/-- Witness for C5 at a concrete residential issuance on 2026-03-02. -/
theorem certificateGeneration_valid_and_atomic_witness :
    issuedCertW.status = .valid ∧
    issuedCertW.validFrom =
      (Option.getD (none : Option CivilDate) ⟨2026, 3, 2⟩) ∧
    issuedCertW.validUntil =
      calculateValidUntil issuedCertW.certType issuedCertW.validFrom ∧
    (issuedCertW.certType = .residential →
      issuedCertW.validUntil =
        mkJsDate (issuedCertW.validFrom.year + 2) issuedCertW.validFrom.month
          issuedCertW.validFrom.day) ∧
    (issuedCertW.certType = .real_estate →
      issuedCertW.validUntil = addDays issuedCertW.validFrom 90) ∧
    issuedCertW ∈ postCertDbW.certificates ∧
    (∀ r ∈ postCertDbW.results, r.id = issuedCertW.resultId →
      r.isImmutable = true) ∧
    (∃ r ∈ preCertDbW.results, r.id = issuedCertW.resultId) :=
  certificateGeneration_valid_and_atomic preCertDbW postCertDbW
    { resultId := "r1", certType := .residential } "c1" ⟨2026, 3, 2⟩
    issuedCertW (by decide)

/-! ## Decimal-string lemmas for the certificate-number analysis -/

theorem natDigitsAux_of_lt (fuel n : Nat) (h1 : n < 10) (h2 : 1 ≤ fuel) :
    natDigitsAux fuel n = [n] := by
  cases fuel with
  | zero => omega
  | succ f => simp [natDigitsAux, if_pos h1]

theorem natDigitsAux_of_ge (fuel n : Nat) (h1 : 10 ≤ n) (h2 : 1 ≤ fuel) :
    natDigitsAux fuel n = natDigitsAux (fuel - 1) (n / 10) ++ [n % 10] := by
  cases fuel with
  | zero => omega
  | succ f =>
    simp only [natDigitsAux, if_neg (by omega : ¬ n < 10)]
    rfl

theorem natDigits_eq₁ (n : Nat) (h : n < 10) : natDigits n = [n] :=
  natDigitsAux_of_lt _ _ h (by omega)

theorem natDigits_eq₂ (n : Nat) (h1 : 10 ≤ n) (h2 : n < 100) :
    natDigits n = [n / 10, n % 10] := by
  unfold natDigits
  rw [natDigitsAux_of_ge _ _ h1 (by omega),
    natDigitsAux_of_lt _ _ (by omega) (by omega)]
  rfl

theorem natDigits_eq₃ (n : Nat) (h1 : 100 ≤ n) (h2 : n < 1000) :
    natDigits n = [n / 100, n / 10 % 10, n % 10] := by
  unfold natDigits
  rw [natDigitsAux_of_ge _ _ (by omega) (by omega),
    natDigitsAux_of_ge _ _ (by omega : 10 ≤ n / 10) (by omega),
    natDigitsAux_of_lt _ _ (by omega : n / 10 / 10 < 10) (by omega),
    Nat.div_div_eq_div_mul]
  rfl

theorem natDigits_eq₄ (n : Nat) (h1 : 1000 ≤ n) (h2 : n < 10000) :
    natDigits n = [n / 1000, n / 100 % 10, n / 10 % 10, n % 10] := by
  unfold natDigits
  rw [natDigitsAux_of_ge _ _ (by omega) (by omega),
    natDigitsAux_of_ge _ _ (by omega : 10 ≤ n / 10) (by omega),
    natDigitsAux_of_ge _ _ (by omega : 10 ≤ n / 10 / 10) (by omega),
    natDigitsAux_of_lt _ _ (by omega : n / 10 / 10 / 10 < 10) (by omega),
    Nat.div_div_eq_div_mul, Nat.div_div_eq_div_mul, Nat.div_div_eq_div_mul]
  have e1 : n / (10 * 10) = n / 100 := by norm_num
  have e2 : n / (10 * 10 * 10) = n / 1000 := by norm_num
  rw [e1, e2]
  have e3 : n / (10 * 10) % 10 = n / 100 % 10 := by rw [e1]
  simp

theorem digitChar_toNat (d : Nat) (h : d < 10) :
    (digitChar d).toNat = 48 + d := by
  revert d h
  decide

theorem digitChar_isDigit (d : Nat) (h : d < 10) :
    (digitChar d).isDigit = true := by
  revert d h
  decide

theorem digitChar_ne_dash (d : Nat) (h : d < 10) : digitChar d ≠ '-' := by
  revert d h
  decide

/-- The four base-10 digits of a number below 10000. -/
def pad4Digits (n : Nat) : List Nat :=
  [n / 1000, n / 100 % 10, n / 10 % 10, n % 10]

theorem pad4Digits_all_lt (n : Nat) (h : n < 10000) :
    ∀ d ∈ pad4Digits n, d < 10 := by
  intro d hd
  simp only [pad4Digits, List.mem_cons, List.not_mem_nil, or_false] at hd
  rcases hd with rfl | rfl | rfl | rfl <;> omega

/-- `pad4` of the certificate-number format. -/
def pad4 (n : Nat) : String := padStartZeros 4 (natRepr n)

theorem pad4_data (n : Nat) (h : n < 10000) :
    (pad4 n).data = (pad4Digits n).map digitChar := by
  unfold pad4 padStartZeros natRepr
  by_cases h1 : n < 10
  · rw [natDigits_eq₁ n h1]
    rw [if_neg (by simp)]
    show ('0' :: '0' :: '0' :: [] ++ [digitChar n] : List Char) = _
    have hz : ('0' : Char) = digitChar 0 := by decide
    simp only [pad4Digits, List.map, hz]
    have d1 : n / 1000 = 0 := by omega
    have d2 : n / 100 % 10 = 0 := by omega
    have d3 : n / 10 % 10 = 0 := by omega
    have d4 : n % 10 = n := by omega
    rw [d1, d2, d3, d4]
    rfl
  · by_cases h2 : n < 100
    · rw [natDigits_eq₂ n (by omega) h2]
      rw [if_neg (by simp)]
      show ('0' :: '0' :: [] ++ [digitChar (n / 10), digitChar (n % 10)] : List Char) = _
      have hz : ('0' : Char) = digitChar 0 := by decide
      simp only [pad4Digits, List.map, hz]
      have d1 : n / 1000 = 0 := by omega
      have d2 : n / 100 % 10 = 0 := by omega
      have d3 : n / 10 % 10 = n / 10 := by omega
      rw [d1, d2, d3]
      rfl
    · by_cases h3 : n < 1000
      · rw [natDigits_eq₃ n (by omega) h3]
        rw [if_neg (by simp)]
        show ('0' :: [] ++
          [digitChar (n / 100), digitChar (n / 10 % 10), digitChar (n % 10)] : List Char) = _
        have hz : ('0' : Char) = digitChar 0 := by decide
        simp only [pad4Digits, List.map, hz]
        have d1 : n / 1000 = 0 := by omega
        have d2 : n / 100 % 10 = n / 100 := by omega
        rw [d1, d2]
        rfl
      · rw [natDigits_eq₄ n (by omega) h]
        rw [if_pos (by simp)]
        rfl

theorem pad4_length (n : Nat) (h : n < 10000) : (pad4 n).length = 4 := by
  show (pad4 n).data.length = 4
  rw [pad4_data n h]
  rfl

theorem charLtB_digitChar (x y : Nat) (hx : x < 10) (hy : y < 10) :
    charLtB (digitChar x) (digitChar y) = decide (x < y) := by
  unfold charLtB
  rw [digitChar_toNat x hx, digitChar_toNat y hy]
  exact decide_eq_decide.2 (by omega)

theorem listLtB_append_same (p u v : List Char) :
    listLtB (p ++ u) (p ++ v) = listLtB u v := by
  induction p with
  | nil => rfl
  | cons a as ih =>
    show listLtB (a :: (as ++ u)) (a :: (as ++ v)) = _
    have ha : charLtB a a = false := by
      unfold charLtB
      exact decide_eq_false (by omega)
    simp only [listLtB, ha, Bool.false_eq_true, if_false]
    exact ih

theorem listLtB_cons_digit (x y : Nat) (hx : x < 10) (hy : y < 10)
    (us vs : List Char) :
    listLtB (digitChar x :: us) (digitChar y :: vs) =
      if x < y then true else if y < x then false else listLtB us vs := by
  simp only [listLtB]
  rw [charLtB_digitChar x y hx hy, charLtB_digitChar y x hy hx]
  by_cases h1 : x < y
  · simp [h1]
  · by_cases h2 : y < x <;> simp [h1, h2]

theorem pad4Digits_lt (a b : Nat) (ha : a < 10000) (hb : b < 10000)
    (hab : a < b) :
    listLtB ((pad4Digits a).map digitChar) ((pad4Digits b).map digitChar) =
      true := by
  simp only [pad4Digits, List.map]
  rw [listLtB_cons_digit _ _ (by omega) (by omega),
    listLtB_cons_digit _ _ (by omega) (by omega),
    listLtB_cons_digit _ _ (by omega) (by omega),
    listLtB_cons_digit _ _ (by omega) (by omega)]
  split_ifs <;> first | rfl | (exfalso; omega)

theorem pad4Digits_ge_false (a b : Nat) (ha : a < 10000) (hb : b < 10000)
    (hab : b ≤ a) :
    listLtB ((pad4Digits a).map digitChar) ((pad4Digits b).map digitChar) =
      false := by
  simp only [pad4Digits, List.map]
  rw [listLtB_cons_digit _ _ (by omega) (by omega),
    listLtB_cons_digit _ _ (by omega) (by omega),
    listLtB_cons_digit _ _ (by omega) (by omega),
    listLtB_cons_digit _ _ (by omega) (by omega)]
  split_ifs <;> first | rfl | (exfalso; omega)

theorem strLtB_pad4 (pre : String) (a b : Nat) (ha : 0 < a) (ha2 : a ≤ 9999)
    (hb : 0 < b) (hb2 : b ≤ 9999) :
    strLtB (pre ++ pad4 a) (pre ++ pad4 b) = decide (a < b) := by
  unfold strLtB
  rw [String.data_append, String.data_append, listLtB_append_same,
    pad4_data a (by omega), pad4_data b (by omega)]
  by_cases h : a < b
  · rw [pad4Digits_lt a b (by omega) (by omega) h, decide_eq_true h]
  · rw [pad4Digits_ge_false a b (by omega) (by omega) (by omega),
      decide_eq_false h]

/-- Largest sequence number in a list (0 when empty). -/
def maxSeq (seqs : List Nat) : Nat := seqs.foldl max 0

theorem le_foldl_max (l : List Nat) (a : Nat) : a ≤ l.foldl max a := by
  induction l generalizing a with
  | nil => exact Nat.le_refl a
  | cons s rest ih =>
    exact Nat.le_trans (Nat.le_max_left a s) (ih (max a s))

theorem mem_le_foldl_max (l : List Nat) (a s : Nat) (h : s ∈ l) :
    s ≤ l.foldl max a := by
  induction l generalizing a with
  | nil => cases h
  | cons b rest ih =>
    rcases List.mem_cons.1 h with rfl | hmem
    · exact Nat.le_trans (Nat.le_max_right a s) (le_foldl_max rest (max a s))
    · exact ih (max a b) hmem

theorem foldl_max_le (l : List Nat) (a k : Nat) (ha : a ≤ k)
    (h : ∀ s ∈ l, s ≤ k) : l.foldl max a ≤ k := by
  induction l generalizing a with
  | nil => exact ha
  | cons b rest ih =>
    exact ih (max a b)
      (Nat.max_le.2 ⟨ha, h b (List.mem_cons_self b rest)⟩)
      (fun s hs => h s (List.mem_cons_of_mem b hs))

theorem foldl_find_desc (pre : String) (a : Nat) (seqs : List Nat)
    (ha : 1 ≤ a ∧ a ≤ 9999) (hb : ∀ s ∈ seqs, 1 ≤ s ∧ s ≤ 9999) :
    List.foldl
      (fun acc c =>
        match acc with
        | none => some c
        | some m => if strLtB m c then some c else some m)
      (some (pre ++ pad4 a)) (seqs.map fun s => pre ++ pad4 s) =
      some (pre ++ pad4 (seqs.foldl max a)) := by
  induction seqs generalizing a with
  | nil => rfl
  | cons s rest ih =>
    have hs := hb s (List.mem_cons_self s rest)
    simp only [List.map, List.foldl]
    rw [strLtB_pad4 pre a s ha.1 ha.2 hs.1 hs.2]
    by_cases h : a < s
    · rw [decide_eq_true h, if_pos rfl]
      rw [ih s hs fun x hx => hb x (List.mem_cons_of_mem s hx)]
      rw [Nat.max_eq_right (Nat.le_of_lt h)]
    · rw [decide_eq_false h, if_neg Bool.false_ne_true]
      rw [ih a ha fun x hx => hb x (List.mem_cons_of_mem s hx)]
      rw [Nat.max_eq_left (by omega)]

theorem findFirstDescending_pad4 (pre : String) (seqs : List Nat)
    (hb : ∀ s ∈ seqs, 1 ≤ s ∧ s ≤ 9999) (hne : seqs ≠ []) :
    findFirstDescending (seqs.map fun s => pre ++ pad4 s) =
      some (pre ++ pad4 (maxSeq seqs)) := by
  cases seqs with
  | nil => exact absurd rfl hne
  | cons s rest =>
    unfold findFirstDescending
    simp only [List.map, List.foldl]
    rw [foldl_find_desc pre s rest (hb s (List.mem_cons_self s rest))
      (fun x hx => hb x (List.mem_cons_of_mem s hx))]
    unfold maxSeq
    simp only [List.foldl, Nat.zero_max]

theorem splitDashList_no_dash (l : List Char) (h : ∀ c ∈ l, c ≠ '-') :
    splitDashList l = [l] := by
  induction l with
  | nil => rfl
  | cons c cs ih =>
    unfold splitDashList
    rw [if_neg (h c (List.mem_cons_self c cs))]
    rw [ih fun x hx => h x (List.mem_cons_of_mem c hx)]

theorem splitDashList_append (x y : List Char) (hx : ∀ c ∈ x, c ≠ '-') :
    splitDashList (x ++ '-' :: y) = x :: splitDashList y := by
  induction x with
  | nil =>
    show splitDashList ('-' :: y) = [] :: splitDashList y
    conv_lhs => unfold splitDashList
    rw [if_pos rfl]
  | cons c cs ih =>
    show splitDashList (c :: (cs ++ '-' :: y)) = _
    conv_lhs => unfold splitDashList
    rw [if_neg (hx c (List.mem_cons_self c cs))]
    rw [ih fun x' hx' => hx x' (List.mem_cons_of_mem c hx')]

theorem takeWhile_isDigit_all (l : List Char)
    (h : ∀ c ∈ l, c.isDigit = true) : l.takeWhile Char.isDigit = l := by
  induction l with
  | nil => rfl
  | cons c cs ih =>
    rw [List.takeWhile_cons, if_pos (h c (List.mem_cons_self c cs))]
    rw [ih fun x hx => h x (List.mem_cons_of_mem c hx)]

theorem parseIntNat_pad4 (s : Nat) (h1 : s < 10000) :
    parseIntNat (pad4 s) = s := by
  unfold parseIntNat
  rw [pad4_data s h1]
  have hall : ∀ c ∈ (pad4Digits s).map digitChar, c.isDigit = true := by
    intro c hc
    rcases List.mem_map.1 hc with ⟨d, hd, rfl⟩
    exact digitChar_isDigit d (pad4Digits_all_lt s h1 d hd)
  rw [takeWhile_isDigit_all _ hall]
  simp only [pad4Digits, List.map, List.isEmpty_cons, Bool.false_eq_true,
    if_false, List.foldl]
  rw [digitChar_toNat _ (by omega), digitChar_toNat _ (by omega),
    digitChar_toNat _ (by omega), digitChar_toNat _ (by omega)]
  omega

theorem pad4_no_dash (s : Nat) (h : s < 10000) :
    ∀ c ∈ (pad4 s).data, c ≠ '-' := by
  rw [pad4_data s h]
  intro c hc
  rcases List.mem_map.1 hc with ⟨d, hd, rfl⟩
  exact digitChar_ne_dash d (pad4Digits_all_lt s h d hd)

theorem extractSequenceNumber_pad4 (d : String) (s : Nat)
    (hd : ∀ c ∈ d.data, c ≠ '-') (h1 : 1 ≤ s) (h2 : s ≤ 9999) :
    extractSequenceNumber ("CP-" ++ d ++ "-" ++ pad4 s) = s := by
  unfold extractSequenceNumber splitDash
  have hdata : ("CP-" ++ d ++ "-" ++ pad4 s).data =
      ['C', 'P'] ++ '-' :: (d.data ++ '-' :: (pad4 s).data) := by
    rw [String.data_append, String.data_append, String.data_append]
    show (['C', 'P', '-'] ++ d.data) ++ ['-'] ++ (pad4 s).data = _
    simp [List.append_assoc]
  rw [hdata]
  rw [splitDashList_append ['C', 'P'] _ (by decide)]
  rw [splitDashList_append d.data _ hd]
  rw [splitDashList_no_dash (pad4 s).data (pad4_no_dash s (by omega))]
  simp only [List.map, List.length]
  rw [if_neg (by omega)]
  show parseIntNat (String.mk (pad4 s).data) = s
  exact parseIntNat_pad4 s (by omega)

theorem pad2_data (n : Nat) (h : n < 100) :
    (padStartZeros 2 (natRepr n)).data =
      [digitChar (n / 10), digitChar (n % 10)] := by
  unfold padStartZeros natRepr
  by_cases h1 : n < 10
  · rw [natDigits_eq₁ n h1, if_neg (by simp)]
    show ('0' :: [] ++ [digitChar n] : List Char) = _
    have hz : ('0' : Char) = digitChar 0 := by decide
    have d1 : n / 10 = 0 := by omega
    have d2 : n % 10 = n := by omega
    rw [d1, d2, hz]
    rfl
  · rw [natDigits_eq₂ n (by omega) h, if_pos (by simp)]
    rfl

theorem formatDate_data (today : CivilDate)
    (hy : 1000 ≤ today.year ∧ today.year ≤ 9999)
    (hm : today.month ≤ 99) (hd : today.day ≤ 99) :
    (formatDateForCertificate today).data =
      [digitChar (today.year.natAbs / 1000),
       digitChar (today.year.natAbs / 100 % 10),
       digitChar (today.year.natAbs / 10 % 10),
       digitChar (today.year.natAbs % 10),
       digitChar (today.month / 10), digitChar (today.month % 10),
       digitChar (today.day / 10), digitChar (today.day % 10)] := by
  unfold formatDateForCertificate intRepr
  rw [if_neg (by omega : ¬ today.year < 0)]
  rw [String.data_append, String.data_append]
  rw [pad2_data _ (by omega), pad2_data _ (by omega)]
  unfold natRepr
  rw [natDigits_eq₄ today.year.natAbs (by omega) (by omega)]
  rfl

theorem formatDate_no_dash (today : CivilDate)
    (hy : 1000 ≤ today.year ∧ today.year ≤ 9999)
    (hm : today.month ≤ 99) (hd : today.day ≤ 99) :
    ∀ c ∈ (formatDateForCertificate today).data, c ≠ '-' := by
  rw [formatDate_data today hy hm hd]
  intro c hc
  simp only [List.mem_cons, List.not_mem_nil, or_false] at hc
  rcases hc with rfl | rfl | rfl | rfl | rfl | rfl | rfl | rfl <;>
    exact digitChar_ne_dash _ (by omega)

theorem formatDate_length (today : CivilDate)
    (hy : 1000 ≤ today.year ∧ today.year ≤ 9999)
    (hm : today.month ≤ 99) (hd : today.day ≤ 99) :
    (formatDateForCertificate today).length = 8 := by
  show (formatDateForCertificate today).data.length = 8
  rw [formatDate_data today hy hm hd]
  rfl

/-- The day prefix of a certificate number. -/
def certDatePre (today : CivilDate) : String :=
  "CP-" ++ formatDateForCertificate today ++ "-"

/-- Two concurrent generation requests interleaved so that both read the
certificate table before either insert commits; the service wraps its
read-max-then-insert in no transaction or lock, so this interleaving is
available to the store. -/
def racedCertificateNumbers (today : CivilDate) (db : List String) :
    List String :=
  let n1 := generateCertificateNumber today db
  let n2 := generateCertificateNumber today db
  db ++ [n1, n2]

/-- Counterexample to C7 as stated: under concurrent generation on
2026-02-26 from an empty table, both calls allocate `CP-20260226-0001`,
so same-day numbers are not duplicate-free. -/
theorem concurrent_generation_duplicates :
    racedCertificateNumbers ⟨2026, 2, 26⟩ [] =
      ["CP-20260226-0001", "CP-20260226-0001"] ∧
    ¬ (racedCertificateNumbers ⟨2026, 2, 26⟩ []).Nodup := by
  decide

/-- C7 (amended): one generation call returns the fixed prefix, the
8-digit date segment and a zero-padded sequence joined by `-`, where the
sequence is the highest existing sequence for today's segment plus one
(1 when none exists); hence each call, run serially so that it sees all
previously inserted rows, allocates a strictly larger, consecutive
number (4 digits while the day stays below 10000), but nothing prevents
two interleaved calls from allocating the same number. -/
theorem certificateNumber_highest_plus_one (today : CivilDate)
    (db : List String) (seqs : List Nat)
    (hy : 1000 ≤ today.year ∧ today.year ≤ 9999)
    (hm : today.month ≤ 99) (hd : today.day ≤ 99)
    (hdb : db.filter (fun c => startsWithB c (certDatePre today)) =
      seqs.map fun s => certDatePre today ++ pad4 s)
    (hb : ∀ s ∈ seqs, 1 ≤ s ∧ s ≤ 9999) :
    generateCertificateNumber today db =
      certDatePre today ++ pad4 (maxSeq seqs + 1) ∧
    (formatDateForCertificate today).length = 8 ∧
    (maxSeq seqs + 1 ≤ 9999 → (pad4 (maxSeq seqs + 1)).length = 4) ∧
    (∀ s ∈ seqs, s < maxSeq seqs + 1) := by
  refine ⟨?_, formatDate_length today hy hm hd,
    fun hle => pad4_length _ (by omega),
    fun s hs => Nat.lt_succ_of_le (mem_le_foldl_max seqs 0 s hs)⟩
  unfold generateCertificateNumber
  unfold certDatePre at hdb ⊢
  dsimp only
  rw [hdb]
  cases seqs with
  | nil => rfl
  | cons s0 rest =>
    rw [findFirstDescending_pad4 _ _ hb (List.cons_ne_nil s0 rest)]
    dsimp only
    have hmax1 : 1 ≤ maxSeq (s0 :: rest) :=
      Nat.le_trans (hb s0 (List.mem_cons_self s0 rest)).1
        (mem_le_foldl_max _ 0 s0 (List.mem_cons_self s0 rest))
    have hmax2 : maxSeq (s0 :: rest) ≤ 9999 :=
      foldl_max_le _ 0 9999 (by omega) fun s hs => (hb s hs).2
    rw [extractSequenceNumber_pad4 (formatDateForCertificate today) _
      (formatDate_no_dash today hy hm hd) hmax1 hmax2]
    rfl

/-- A concrete table for the C7 witness: two of today's numbers, one
foreign string and one prior-day number. -/
def certTableW : List String :=
  ["CP-20260226-0001", "XYZ", "CP-20260226-0002", "CP-20251231-0007"]

/-- Witness for the amended C7: on 2026-02-26 over `certTableW` the next
number allocated is sequence 3. -/
theorem certificateNumber_highest_plus_one_witness :
    generateCertificateNumber ⟨2026, 2, 26⟩ certTableW =
      certDatePre ⟨2026, 2, 26⟩ ++ pad4 (maxSeq [1, 2] + 1) ∧
    (formatDateForCertificate ⟨2026, 2, 26⟩).length = 8 ∧
    (maxSeq [1, 2] + 1 ≤ 9999 → (pad4 (maxSeq [1, 2] + 1)).length = 4) ∧
    (∀ s ∈ [1, 2], s < maxSeq [1, 2] + 1) :=
  certificateNumber_highest_plus_one ⟨2026, 2, 26⟩ certTableW [1, 2]
    (by decide) (by decide) (by decide) (by decide) (by decide)

end ClearPath
